import Mathlib

/-!
Verification of the offline job crawler (`src/tools/offline_job_crawl.py`).

The crawler's logic is embedded shallowly: a description is a `List Char`
(a Python `str` is a sequence of code points), counters are `Nat`, the float
ratio comparison against the constant `0.3` is modelled exactly over `ℚ`
(equivalently by cross-multiplication over `Nat`), browser interactions
(navigation outcomes, card click outcomes, pagination outcomes) are explicit
input data, and file writes are an explicit operation trace.
-/

/-- Outcome of the filter pipeline on one raw record. -/
inductive Decision
  | Accept
  | RejectShort
  | RejectForeign
deriving DecidableEq, Repr

/-- `c.isascii() and c.isalpha()` in Python: an ASCII alphabetic character. -/
def isAsciiAlpha (c : Char) : Bool :=
  c.toNat < 128 && ((Char.ofNat 65 ≤ c && c ≤ Char.ofNat 90) || (Char.ofNat 97 ≤ c && c ≤ Char.ofNat 122))

/-- `english_chars = sum(1 for c in job_description if c.isascii() and c.isalpha())`. -/
def englishChars (desc : List Char) : Nat :=
  desc.countP isAsciiAlpha

/-- `english_ratio = english_chars / total_chars if total_chars > 0 else 0`,
computed exactly over `ℚ`. -/
def englishRatio (desc : List Char) : ℚ :=
  if desc.length > 0 then (englishChars desc : ℚ) / (desc.length : ℚ) else 0

/-- The source's test `english_ratio > 0.3`, in exact cross-multiplied form:
for `total_chars > 0`, `english/total > 3/10 ↔ 3*total < 10*english`, and for
`total_chars = 0` the ratio is `0`, which is not `> 0.3`, matching `3*0 < 10*0`
being false. `ratioExceedsLimit_iff` below proves this form equal to the
`ℚ`-level reading. -/
def ratioExceedsLimit (desc : List Char) : Bool :=
  3 * desc.length < 10 * englishChars desc

/-- The filter pipeline as written in `get_job_details`
(offline_job_crawl.py lines 215-238): first the length filter
(`if len(job_description) < min_description_length`), then the
foreign-language filter with the hard-coded constant `0.3`
(`if english_ratio > 0.3`). -/
def filterDecision (desc : List Char) (minLen : Nat) : Decision :=
  if desc.length < minLen then .RejectShort
  else if ratioExceedsLimit desc then .RejectForeign
  else .Accept

/-- Modelled from the spec's words for section 4.5 (refinement comparison only):
the same pipeline but with the foreign-language threshold taken from a
`foreign_language_ratio_limit` parameter rather than a constant. -/
def specFilterDecision (limit : ℚ) (desc : List Char) (minLen : Nat) : Decision :=
  if desc.length < minLen then .RejectShort
  else if englishRatio desc > limit then .RejectForeign
  else .Accept

/-- The cross-multiplied test agrees with the exact `ℚ` reading of
`english_ratio > 0.3`. -/
theorem ratioExceedsLimit_iff (desc : List Char) :
    ratioExceedsLimit desc = true ↔ englishRatio desc > (3 : ℚ) / 10 := by
  unfold ratioExceedsLimit englishRatio
  rcases Nat.eq_zero_or_pos desc.length with h | h
  · have hd : desc = [] := List.length_eq_zero.mp h
    subst hd
    simp [englishChars]
    norm_num
  · have hq : (0 : ℚ) < (desc.length : ℚ) := by exact_mod_cast h
    rw [if_pos h, gt_iff_lt, div_lt_div_iff₀ (by norm_num) hq, decide_eq_true_eq]
    constructor
    · intro hlt
      have h2 : ((3 * desc.length : ℕ) : ℚ) < ((10 * englishChars desc : ℕ) : ℚ) := by
        exact_mod_cast hlt
      push_cast at h2
      linarith
    · intro hlt
      have h2 : (3 * (desc.length : ℚ)) < 10 * (englishChars desc : ℚ) := by linarith
      exact_mod_cast h2

/-- The code's filter agrees with the spec-parameterized filter exactly at
the default limit `0.3`. -/
theorem filterDecision_eq_spec_at_default (desc : List Char) (minLen : Nat) :
    filterDecision desc minLen = specFilterDecision ((3 : ℚ) / 10) desc minLen := by
  unfold filterDecision specFilterDecision
  by_cases h : desc.length < minLen
  · simp [h]
  · rw [if_neg h, if_neg h]
    by_cases hr : ratioExceedsLimit desc = true
    · rw [if_pos hr, if_pos ((ratioExceedsLimit_iff desc).mp hr)]
    · rw [if_neg hr, if_neg (fun hc => hr ((ratioExceedsLimit_iff desc).mpr hc))]

/-! ## Navigation retry loop (offline_job_crawl.py lines 137-148) -/

/-- Result of the page-load retry loop: whether the final attempt's timeout
was re-raised as a fatal error, how many navigation attempts ran (each
attempt = warm-up goto, target goto, DOM-marker wait), and how many full page
reloads were performed (one after each failed non-final attempt). -/
structure NavResult where
  fatal : Bool
  attempts : Nat
  reloads : Nat
deriving DecidableEq, Repr

/-- `for attempt in range(max_retries): try nav; break; except Timeout:
if attempt == max_retries - 1: raise; reload()`. `ok i` tells whether the
`i`-th attempt's navigation succeeds; `remaining` is the number of loop
iterations left (`maxRetries - attempt`). -/
def navFrom (ok : Nat → Bool) (maxRetries : Nat) : Nat → Nat → NavResult
  | _, 0 => ⟨false, 0, 0⟩
  | attempt, remaining + 1 =>
    if ok attempt then ⟨false, 1, 0⟩
    else if attempt = maxRetries - 1 then ⟨true, 1, 0⟩
    else
      let r := navFrom ok maxRetries (attempt + 1) remaining
      ⟨r.fatal, r.attempts + 1, r.reloads + 1⟩

/-- The whole retry loop, starting at attempt 0. -/
def navigate (ok : Nat → Bool) (maxRetries : Nat) : NavResult :=
  navFrom ok maxRetries 0 maxRetries

/-! ## Card-processing loop and pagination (lines 150-298) -/

/-- What happens when one card is clicked: no detail response is captured
within the 3 s poll (`continue`), a detail response with the given (stripped)
description arrives, or an exception occurs while processing the card
(caught, loop continues). -/
inductive CardEvent
  | noResponse
  | response (desc : List Char)
  | cardError
deriving DecidableEq, Repr

/-- The mutable counters and buffer of one crawl session
(`valid_count`, `filtered_count`, `filtered_english_count`, `jobs_buffer`,
`page_num`), plus the number of cards actually visited by the loop. -/
structure CrawlState where
  validCount : Nat
  filteredCount : Nat
  filteredEnglishCount : Nat
  visited : Nat
  buffer : List (List Char)
  pageNum : Nat
deriving DecidableEq, Repr

def initState : CrawlState :=
  { validCount := 0, filteredCount := 0, filteredEnglishCount := 0,
    visited := 0, buffer := [], pageNum := 1 }

/-- The body of `for card in cards` for one card (lines 191-269): a missing
response or an exception leaves all counters unchanged; a parsed record goes
through the filter pipeline, bumping exactly one of the three counters, and
only an accepted record is appended to `jobs_buffer`. -/
def stepCard (minLen : Nat) (st : CrawlState) (c : CardEvent) : CrawlState :=
  match c with
  | .noResponse => { st with visited := st.visited + 1 }
  | .cardError => { st with visited := st.visited + 1 }
  | .response desc =>
    match filterDecision desc minLen with
    | .RejectShort =>
        { st with visited := st.visited + 1, filteredCount := st.filteredCount + 1 }
    | .RejectForeign =>
        { st with visited := st.visited + 1,
                  filteredEnglishCount := st.filteredEnglishCount + 1 }
    | .Accept =>
        { st with visited := st.visited + 1, validCount := st.validCount + 1,
                  buffer := st.buffer ++ [desc] }

/-- The `for card in cards` loop with its leading
`if valid_count >= max_count: break` (lines 187-189). -/
def processCards (minLen maxCount : Nat) : List CardEvent → CrawlState → CrawlState
  | [], st => st
  | c :: rest, st =>
    if maxCount ≤ st.validCount then st
    else processCards minLen maxCount rest (stepCard minLen st c)

/-- How the pagination step at the bottom of a page ends (lines 276-298). -/
inductive PageEnd
  | nextOk
  | nextDisabled
  | noNextButton
  | advanceError
deriving DecidableEq, Repr

/-- One loaded results page: the card outcomes its enumeration yields after
scrolling, and how its pagination step would end. -/
structure Page where
  cards : List CardEvent
  pageEnd : PageEnd
deriving DecidableEq, Repr

/-- The `while valid_count < max_count` pagination loop (lines 162-298):
quota check, empty-page check, the per-card loop, the post-loop quota check,
then pagination (only `nextOk` continues to the next page; a disabled or
missing next button, or an advance exception, breaks out). -/
def crawlPages (minLen maxCount : Nat) : List Page → CrawlState → CrawlState
  | [], st => st
  | p :: rest, st =>
    if maxCount ≤ st.validCount then st
    else if p.cards.isEmpty then st
    else
      let st2 := processCards minLen maxCount p.cards st
      if maxCount ≤ st2.validCount then st2
      else
        match p.pageEnd with
        | .nextOk => crawlPages minLen maxCount rest { st2 with pageNum := st2.pageNum + 1 }
        | _ => st2

/-! ## Per-category file writes (lines 86-104 and 300-311) -/

/-- A write to the per-category CSV file: the header row written at crawl
start (line 104), or the single batch `writer.writerows(jobs_buffer)`
appended at crawl completion (line 304). -/
inductive FileOp
  | writeHeader
  | appendRows (rows : List (List Char))
deriving DecidableEq, Repr

/-- The inputs of one `get_job_details` call that the embedding depends on:
which navigation attempts would succeed, `max_retries`, what each results
page yields, `max_count` and `min_description_length`. -/
structure JobDetailsInput where
  navOk : Nat → Bool
  maxRetries : Nat
  pages : List Page
  maxCount : Nat
  minLen : Nat

/-- The session state `get_job_details` ends with. -/
def jobDetailsState (inp : JobDetailsInput) : CrawlState :=
  crawlPages inp.minLen inp.maxCount inp.pages initState

/-- The writes `get_job_details` performs on the per-category file, in order
(lines 86-104, 137-148, 300-311): the header is written before anything else;
if the navigation retry loop raises, the exception propagates and nothing
more is written; otherwise, after the enumeration loop ends, the buffered
records are appended in one batch — and only when the buffer is non-empty. -/
def get_job_details (inp : JobDetailsInput) : List FileOp :=
  FileOp.writeHeader ::
    (if (navigate inp.navOk inp.maxRetries).fatal then []
     else if (jobDetailsState inp).buffer.isEmpty then []
     else [FileOp.appendRows (jobDetailsState inp).buffer])

/-! ## Merging a category CSV into the combined JSONL (lines 347-356) -/

/-- One data row of the per-category CSV: the fixed 12-column record. -/
structure Row where
  company : String
  title : String
  location : String
  salaryRange : String
  experience : String
  degree : String
  tags : String
  skills : String
  companySize : String
  companyStage : String
  industry : String
  description : String
deriving DecidableEq, Repr

/-- One line of the combined JSONL dataset: the 12 fields plus the two tag
fields added by the merge. -/
structure TaggedRow extends Row where
  job_category : String
  job_code : String
deriving DecidableEq, Repr

/-- `row["job_category"] = job_name; row["job_code"] = job_code`. -/
def tagRow (row : Row) (jobName jobCode : String) : TaggedRow :=
  { row with job_category := jobName, job_code := jobCode }

/-- `append_csv_to_jsonl` (lines 347-356): stream the rows of the category
file in order, tag each with the category name and code, write one JSONL
line per row to the combined file, and count the rows written. Returns the
combined file's contents and the returned count. -/
def append_csv_to_jsonl (rows : List Row) (combined : List TaggedRow)
    (jobName jobCode : String) : List TaggedRow × Nat :=
  rows.foldl (fun acc row => (acc.1 ++ [tagRow row jobName jobCode], acc.2 + 1))
    (combined, 0)

/-! ## Category names, validation, and `main` (lines 20-34, 335-344, 410-433) -/

/-- The static category → search-code mapping `job_dict`, in declaration
order (Python dicts preserve insertion order). -/
def job_dict : List (String × String) :=
  [("Java", "100101"), ("C/C++", "100102"), ("Python", "100109"),
   ("Golang", "100116"), ("Node.js", "100114"), ("图像算法", "101306"),
   ("自然语言处理算法", "100117"), ("大模型算法", "101310"), ("数据挖掘", "100104"),
   ("规控算法", "101311"), ("SLAM算法", "101312"), ("推荐算法", "100118"),
   ("搜索算法", "100115")]

/-- Python's `raw.split(",")` on a sequence of code points
(so `"".split(",") == [""]`). -/
def splitOnComma : List Char → List (List Char)
  | [] => [[]]
  | c :: rest =>
    if c = ',' then [] :: splitOnComma rest
    else
      match splitOnComma rest with
      | [] => [[c]]
      | t :: ts => (c :: t) :: ts

def isSpaceChar (c : Char) : Bool :=
  c = ' ' || c = '\t' || c = '\n' || c = '\r'

/-- Python's `name.strip()`: drop whitespace from both ends. -/
def stripEnds (s : List Char) : List Char :=
  ((s.dropWhile isSpaceChar).reverse.dropWhile isSpaceChar).reverse

/-- `[name.strip() for name in raw_jobs.split(",") if name.strip()]`. -/
def jobNames (raw : List Char) : List (List Char) :=
  ((splitOnComma raw).map stripEnds).filter (fun n => n ≠ [])

/-- Membership of a name in `job_dict` (`name in job_dict`). -/
def isKnownJob (n : List Char) : Bool :=
  job_dict.any (fun p => p.1.data = n)

/-- All category names, in `job_dict` declaration order
(`list(job_dict.keys())`). -/
def allJobNames : List (List Char) :=
  job_dict.map (fun p => p.1.data)

/-- `parse_job_names` (lines 335-344): a falsy argument (absent or empty
string) yields every key of `job_dict`; otherwise split on commas, strip,
drop blanks, and raise `ValueError` listing the unknown names if any
survive. -/
def parse_job_names (raw : Option (List Char)) : Except (List (List Char)) (List (List Char)) :=
  match raw with
  | none => .ok allJobNames
  | some s =>
    if s = [] then .ok allJobNames
    else if ((jobNames s).filter (fun n => ! isKnownJob n)).isEmpty then .ok (jobNames s)
    else .error ((jobNames s).filter (fun n => ! isKnownJob n))

/-- The externally observable steps of `main` (lines 410-433), in order.
`callCrawlJobs` marks the `crawl_jobs(...)` call — the only step after which
a browser session or an output file could be opened. -/
inductive Effect
  | mkdirOutputDir
  | mkdirCombinedParent
  | callCrawlJobs
deriving DecidableEq, Repr

/-- `main`: create the two output directories, then validate the category
names; a `ValueError` from `parse_job_names` propagates, so `crawl_jobs` is
reached only when validation succeeds. -/
def mainEffects (jobsArg : Option (List Char)) : List Effect :=
  [Effect.mkdirOutputDir, Effect.mkdirCombinedParent] ++
    (match parse_job_names jobsArg with
     | .error _ => []
     | .ok _ => [Effect.callCrawlJobs])

/-- The combined dataset rows after running `main`: `crawl_jobs` is declared
`async def` (line 359) but `main` invokes it without `await` (line 424), so
the call only constructs a coroutine object that is never run and performs
no IO — the combined file is neither opened, truncated, nor appended to,
whatever the `--append` flag says. (Even if the coroutine were awaited, the
`await get_job_details(...)` inside `crawl_jobs` (line 379) would raise
`TypeError` — `get_job_details` is a plain synchronous function returning
`str` — which the `except Exception` catches, skipping every merge.) -/
def mainCombinedRows (prior : List TaggedRow) (append : Bool) : List TaggedRow :=
  prior

/-- Modelled from the spec: the intended combined-file semantics for one run —
keep the prior contents exactly when `append` is set, then add one tagged row
per accepted record of the run. -/
def specCombinedRows (prior newRows : List TaggedRow) (append : Bool) : List TaggedRow :=
  (if append then prior else []) ++ newRows

/-! ## Helper lemmas -/

theorem navFrom_allFail (ok : Nat → Bool) (maxRetries : Nat)
    (hfail : ∀ i, ok i = false) :
    ∀ remaining attempt, remaining ≠ 0 → attempt + remaining = maxRetries →
      navFrom ok maxRetries attempt remaining =
        { fatal := true, attempts := remaining, reloads := remaining - 1 } := by
  intro remaining
  induction remaining with
  | zero => intro attempt h _; exact absurd rfl h
  | succ r ih =>
    intro attempt _ htot
    rw [navFrom, hfail attempt]
    simp only [Bool.false_eq_true, if_false]
    by_cases hlast : attempt = maxRetries - 1
    · have hr0 : r = 0 := by omega
      subst hr0
      rw [if_pos hlast]
    · have hr : r ≠ 0 := by omega
      rw [if_neg hlast, ih (attempt + 1) hr (by omega)]
      have : r - 1 + 1 = r := by omega
      simp [this]

/-! ## Claim theorems -/

/-- C1: the filter decides in order — the record is `RejectShort` exactly when
the description is shorter than `min_description_length`; only otherwise is
the language ratio consulted; a length-0 description has ratio 0, is never
`RejectForeign`, and is caught by the short filter whenever
`min_description_length > 0`; and a 150-character description with
`min_description_length = 200` is `RejectShort` regardless of its ratio. -/
theorem c1_short_filter_first (desc : List Char) (minLen : Nat) :
    (filterDecision desc minLen = .RejectShort ↔ desc.length < minLen) ∧
    (desc.length = 0 →
      englishRatio desc = 0 ∧
      filterDecision desc minLen ≠ .RejectForeign ∧
      (0 < minLen → filterDecision desc minLen = .RejectShort)) ∧
    (desc.length = 150 → filterDecision desc 200 = .RejectShort) := by
  refine ⟨?_, ?_, ?_⟩
  · unfold filterDecision
    by_cases h : desc.length < minLen
    · simp [h]
    · simp only [h, if_neg, if_false]
      by_cases hr : ratioExceedsLimit desc = true <;> simp [hr, h]
  · intro h0
    have hd : desc = [] := List.length_eq_zero.mp h0
    subst hd
    refine ⟨by simp [englishRatio], ?_, ?_⟩
    · unfold filterDecision
      by_cases h : 0 < minLen
      · simp [h]
      · simp [h, ratioExceedsLimit, englishChars]
    · intro hpos
      unfold filterDecision
      simp [hpos]
  · intro h150
    unfold filterDecision
    rw [if_pos (by omega)]

theorem c1_witness :
    englishRatio [] = 0 ∧ filterDecision [] 5 ≠ .RejectForeign ∧
    filterDecision (List.replicate 150 'x') 200 = .RejectShort :=
  ⟨((c1_short_filter_first [] 5).2.1 rfl).1,
   ((c1_short_filter_first [] 5).2.1 rfl).2.1,
   (c1_short_filter_first (List.replicate 150 'x') 200).2.2 (by simp)⟩

/-- C2, counterexample: with every navigation attempt timing out and
`max_retries = 3`, the retry loop makes 3 navigation attempts in total before
failing fatally — not the 4 total attempts the claim states. -/
theorem c2_counterexample :
    navigate (fun _ => false) 3 = { fatal := true, attempts := 3, reloads := 2 } ∧
    (navigate (fun _ => false) 3).attempts ≠ 4 := by
  constructor <;> decide

/-- C2, amended: with every attempt timing out and `max_retries ≥ 1`, the
category crawl fails fatally after exactly `max_retries` total navigation
attempts (the initial attempt plus `max_retries - 1` retries), each retry
preceded by a full page reload. -/
theorem c2_retries_amended (maxRetries : Nat) (ok : Nat → Bool)
    (hfail : ∀ i, ok i = false) (hpos : 0 < maxRetries) :
    navigate ok maxRetries =
      { fatal := true, attempts := maxRetries, reloads := maxRetries - 1 } :=
  navFrom_allFail ok maxRetries hfail maxRetries 0 (by omega) (by omega)

theorem c2_witness :
    navigate (fun _ => false) 3 = { fatal := true, attempts := 3, reloads := 2 } :=
  c2_retries_amended 3 (fun _ => false) (fun _ => rfl) (by decide)

/-- C5, counterexample: the code's filter rejects "Hello World 你好" as
foreign even though the claim says a limit of 0.9 would accept it — the
threshold is the hard-coded constant 0.3, not a
`foreign_language_ratio_limit` parameter, so the limit-0.9 behaviour the
claim describes does not exist in the code. -/
theorem c5_counterexample :
    filterDecision "Hello World 你好".data 1 = .RejectForeign ∧
    specFilterDecision ((9 : ℚ) / 10) "Hello World 你好".data 1 = .Accept ∧
    filterDecision "Hello World 你好".data 1 ≠
      specFilterDecision ((9 : ℚ) / 10) "Hello World 你好".data 1 := by
  have hlen : ("Hello World 你好".data).length = 14 := by decide
  have hec : englishChars "Hello World 你好".data = 10 := by decide
  have hr : englishRatio "Hello World 你好".data = 10 / 14 := by
    rw [englishRatio, if_pos (by rw [hlen]; norm_num), hec, hlen]
    norm_num
  have hspec : specFilterDecision ((9 : ℚ) / 10) "Hello World 你好".data 1 = .Accept := by
    rw [specFilterDecision, if_neg (by rw [hlen]; omega), if_neg (by rw [hr]; norm_num)]
  refine ⟨by decide, hspec, ?_⟩
  rw [hspec]
  decide

/-- C5, amended: the foreign-language threshold is hard-coded to 0.3 (the
spec parameter's default): the code's filter coincides with the
spec-parameterized filter at limit 0.3 on every input, and
"Hello World 你好" is rejected as `RejectForeign`; no
`foreign_language_ratio_limit` parameter exists in the code, so raising the
limit to 0.9 is not possible and the record is rejected, not accepted. -/
theorem c5_threshold_amended :
    (∀ (desc : List Char) (minLen : Nat),
      filterDecision desc minLen = specFilterDecision ((3 : ℚ) / 10) desc minLen) ∧
    filterDecision "Hello World 你好".data 1 = .RejectForeign :=
  ⟨filterDecision_eq_spec_at_default, by decide⟩

theorem stepCard_visited (minLen : Nat) (st : CrawlState) (c : CardEvent) :
    (stepCard minLen st c).visited = st.visited + 1 := by
  cases c with
  | noResponse => rfl
  | cardError => rfl
  | response desc =>
    cases h : filterDecision desc minLen <;> simp [stepCard, h]

theorem stepCard_counters (minLen : Nat) (st : CrawlState) (c : CardEvent) :
    (stepCard minLen st c).validCount + (stepCard minLen st c).filteredCount +
        (stepCard minLen st c).filteredEnglishCount ≤
      st.validCount + st.filteredCount + st.filteredEnglishCount + 1 := by
  cases c with
  | noResponse => simp [stepCard]
  | cardError => simp [stepCard]
  | response desc =>
    cases h : filterDecision desc minLen <;> simp [stepCard, h] <;> omega

theorem stepCard_buffer (minLen : Nat) (st : CrawlState) (c : CardEvent)
    (hbuf : st.validCount = st.buffer.length) :
    (stepCard minLen st c).validCount = (stepCard minLen st c).buffer.length := by
  cases c with
  | noResponse => simpa [stepCard] using hbuf
  | cardError => simpa [stepCard] using hbuf
  | response desc =>
    cases h : filterDecision desc minLen <;> simp [stepCard, h, hbuf]

theorem processCards_counters (minLen maxCount : Nat) :
    ∀ (cards : List CardEvent) (st : CrawlState),
      (processCards minLen maxCount cards st).validCount +
          (processCards minLen maxCount cards st).filteredCount +
          (processCards minLen maxCount cards st).filteredEnglishCount +
          st.visited ≤
        st.validCount + st.filteredCount + st.filteredEnglishCount +
          (processCards minLen maxCount cards st).visited := by
  intro cards
  induction cards with
  | nil => intro st; simp [processCards]
  | cons c rest ih =>
    intro st
    rw [processCards]
    by_cases h : maxCount ≤ st.validCount
    · simp [h]
    · rw [if_neg h]
      have h1 := ih (stepCard minLen st c)
      have h2 := stepCard_counters minLen st c
      have h3 := stepCard_visited minLen st c
      omega

theorem processCards_buffer (minLen maxCount : Nat) :
    ∀ (cards : List CardEvent) (st : CrawlState),
      st.validCount = st.buffer.length →
      (processCards minLen maxCount cards st).validCount =
        (processCards minLen maxCount cards st).buffer.length := by
  intro cards
  induction cards with
  | nil => intro st h; simpa [processCards] using h
  | cons c rest ih =>
    intro st h
    rw [processCards]
    by_cases hq : maxCount ≤ st.validCount
    · simpa [hq] using h
    · rw [if_neg hq]
      exact ih (stepCard minLen st c) (stepCard_buffer minLen st c h)

theorem crawlPages_counters (minLen maxCount : Nat) :
    ∀ (pages : List Page) (st : CrawlState),
      (crawlPages minLen maxCount pages st).validCount +
          (crawlPages minLen maxCount pages st).filteredCount +
          (crawlPages minLen maxCount pages st).filteredEnglishCount +
          st.visited ≤
        st.validCount + st.filteredCount + st.filteredEnglishCount +
          (crawlPages minLen maxCount pages st).visited := by
  intro pages
  induction pages with
  | nil => intro st; simp [crawlPages]
  | cons p rest ih =>
    intro st
    rw [crawlPages]
    by_cases h1 : maxCount ≤ st.validCount
    · simp [h1]
    · rw [if_neg h1]
      by_cases h2 : p.cards.isEmpty = true
      · simp [h2]
      · rw [if_neg h2]
        have hp := processCards_counters minLen maxCount p.cards st
        set st2 := processCards minLen maxCount p.cards st with hst2
        by_cases h3 : maxCount ≤ st2.validCount
        · simpa [h3] using hp
        · rw [if_neg h3]
          cases p.pageEnd with
          | nextOk =>
            have hr := ih { st2 with pageNum := st2.pageNum + 1 }
            dsimp only at hr ⊢
            omega
          | nextDisabled => dsimp only; omega
          | noNextButton => dsimp only; omega
          | advanceError => dsimp only; omega

theorem crawlPages_buffer (minLen maxCount : Nat) :
    ∀ (pages : List Page) (st : CrawlState),
      st.validCount = st.buffer.length →
      (crawlPages minLen maxCount pages st).validCount =
        (crawlPages minLen maxCount pages st).buffer.length := by
  intro pages
  induction pages with
  | nil => intro st h; simpa [crawlPages] using h
  | cons p rest ih =>
    intro st h
    rw [crawlPages]
    by_cases h1 : maxCount ≤ st.validCount
    · simpa [h1] using h
    · rw [if_neg h1]
      by_cases h2 : p.cards.isEmpty = true
      · simpa [h2] using h
      · rw [if_neg h2]
        have hp := processCards_buffer minLen maxCount p.cards st h
        set st2 := processCards minLen maxCount p.cards st with hst2
        by_cases h3 : maxCount ≤ st2.validCount
        · simpa [h3] using hp
        · rw [if_neg h3]
          cases p.pageEnd with
          | nextOk => exact ih { st2 with pageNum := st2.pageNum + 1 } hp
          | nextDisabled => exact hp
          | noNextButton => exact hp
          | advanceError => exact hp

theorem processCards_stop (minLen maxCount : Nat) (cards : List CardEvent)
    (st : CrawlState) (h : maxCount ≤ st.validCount) :
    processCards minLen maxCount cards st = st := by
  cases cards with
  | nil => rfl
  | cons c rest => rw [processCards, if_pos h]

theorem processCards_allAccept (minLen maxCount : Nat) :
    ∀ (descs : List (List Char)) (st : CrawlState),
      (∀ d ∈ descs, filterDecision d minLen = .Accept) →
      st.validCount < maxCount →
      (processCards minLen maxCount (descs.map CardEvent.response) st).validCount =
          min maxCount (st.validCount + descs.length) ∧
        (processCards minLen maxCount (descs.map CardEvent.response) st).visited =
          st.visited + min (maxCount - st.validCount) descs.length := by
  intro descs
  induction descs with
  | nil =>
    intro st _ hv
    constructor <;> simp [processCards] <;> omega
  | cons d rest ih =>
    intro st hacc hv
    have hd : filterDecision d minLen = .Accept := hacc d (List.mem_cons_self d rest)
    have hstep : stepCard minLen st (.response d) =
        { st with visited := st.visited + 1, validCount := st.validCount + 1,
                  buffer := st.buffer ++ [d] } := by
      simp [stepCard, hd]
    rw [List.map_cons, processCards, if_neg (by omega), hstep]
    by_cases h2 : st.validCount + 1 < maxCount
    · have hrec := ih
        { st with visited := st.visited + 1, validCount := st.validCount + 1,
                  buffer := st.buffer ++ [d] }
        (fun e he => hacc e (List.mem_cons_of_mem _ he)) (by dsimp only; omega)
      dsimp only at hrec
      rcases hrec with ⟨hva, hvi⟩
      rw [hva, hvi]
      constructor <;> simp <;> omega
    · rw [processCards_stop _ _ _ _ (by dsimp only; omega)]
      dsimp only
      constructor <;> simp <;> omega

/-- C3: `max_count` bounds only the accepted-record counter — with quota 3 and
a page of `3 + n` qualifying cards, the loop stops after exactly 3 accepted
records (3 cards visited, 3 records buffered) even though more cards remain;
and a card rejected by either filter never increments `valid_count`. -/
theorem c3_quota_counts_accepted_only (minLen n : Nat) (descs : List (List Char))
    (pend : PageEnd)
    (hacc : ∀ d ∈ descs, filterDecision d minLen = .Accept)
    (hlen : descs.length = 3 + n) :
    ((crawlPages minLen 3 [⟨descs.map CardEvent.response, pend⟩] initState).validCount = 3 ∧
      (crawlPages minLen 3 [⟨descs.map CardEvent.response, pend⟩] initState).visited = 3 ∧
      (crawlPages minLen 3 [⟨descs.map CardEvent.response, pend⟩] initState).buffer.length = 3) ∧
    ∀ (st : CrawlState) (d : List Char), filterDecision d minLen ≠ .Accept →
      (stepCard minLen st (.response d)).validCount = st.validCount := by
  have hproc := processCards_allAccept minLen 3 descs initState hacc (by simp [initState])
  have hv3 : (processCards minLen 3 (descs.map CardEvent.response) initState).validCount = 3 := by
    rw [hproc.1, hlen]
    simp [initState]
  have hvis : (processCards minLen 3 (descs.map CardEvent.response) initState).visited = 3 := by
    rw [hproc.2, hlen]
    simp [initState]
  have hne : descs ≠ [] := by
    intro h
    rw [h] at hlen
    simp only [List.length_nil] at hlen
    omega
  have h2 : ¬((descs.map CardEvent.response).isEmpty = true) := by
    intro hemp
    rw [List.isEmpty_iff, List.map_eq_nil_iff] at hemp
    exact hne hemp
  have hcr : crawlPages minLen 3 [⟨descs.map CardEvent.response, pend⟩] initState =
      processCards minLen 3 (descs.map CardEvent.response) initState := by
    rw [crawlPages]
    dsimp only
    rw [if_neg (by simp [initState]), if_neg h2, if_pos (by omega)]
  have hbuf : (processCards minLen 3 (descs.map CardEvent.response) initState).buffer.length = 3 := by
    rw [← processCards_buffer minLen 3 (descs.map CardEvent.response) initState rfl, hv3]
  refine ⟨⟨by rw [hcr, hv3], by rw [hcr, hvis], by rw [hcr, hbuf]⟩, ?_⟩
  intro st d hd
  cases h : filterDecision d minLen with
  | Accept => exact absurd h hd
  | RejectShort => simp [stepCard, h]
  | RejectForeign => simp [stepCard, h]

theorem c3_witness :
    (crawlPages 0 3 [⟨(List.replicate 4 "你好".data).map CardEvent.response, .nextOk⟩]
        initState).validCount = 3 ∧
    (crawlPages 0 3 [⟨(List.replicate 4 "你好".data).map CardEvent.response, .nextOk⟩]
        initState).visited = 3 ∧
    (crawlPages 0 3 [⟨(List.replicate 4 "你好".data).map CardEvent.response, .nextOk⟩]
        initState).buffer.length = 3 :=
  (c3_quota_counts_accepted_only 0 1 (List.replicate 4 "你好".data) .nextOk
    (fun d hd => by rw [List.eq_of_mem_replicate hd]; decide) (by simp)).1

/-- C4: the per-category file trace always starts with the 12-column header
written at crawl start, and is either header-only or the header followed by
one single batch containing exactly the accepted-record buffer (whose length
is the accepted count) — never partial rows. -/
theorem c4_header_then_single_batch (inp : JobDetailsInput) :
    (get_job_details inp).head? = some FileOp.writeHeader ∧
    (get_job_details inp = [FileOp.writeHeader] ∨
      (get_job_details inp =
          [FileOp.writeHeader, FileOp.appendRows (jobDetailsState inp).buffer] ∧
        (jobDetailsState inp).buffer ≠ [] ∧
        (jobDetailsState inp).buffer.length = (jobDetailsState inp).validCount)) := by
  unfold get_job_details
  refine ⟨rfl, ?_⟩
  by_cases h1 : (navigate inp.navOk inp.maxRetries).fatal = true
  · left
    rw [if_pos h1]
  · rw [if_neg h1]
    by_cases h2 : (jobDetailsState inp).buffer.isEmpty = true
    · left
      rw [if_pos h2]
    · right
      rw [if_neg h2]
      refine ⟨rfl, ?_, ?_⟩
      · intro hnil
        rw [List.isEmpty_iff] at h2
        exact h2 hnil
      · exact (crawlPages_buffer inp.minLen inp.maxCount inp.pages initState rfl).symm

/-- C6: at the end of any crawl session, `valid_count` equals the number of
buffered accepted records, the three counters together never exceed the
number of cards visited, and each visited card advances `visited` by exactly
one while incrementing at most one of the three counters. -/
theorem c6_counter_invariants (minLen maxCount : Nat) (pages : List Page) :
    (crawlPages minLen maxCount pages initState).validCount =
        (crawlPages minLen maxCount pages initState).buffer.length ∧
    (crawlPages minLen maxCount pages initState).validCount +
        (crawlPages minLen maxCount pages initState).filteredCount +
        (crawlPages minLen maxCount pages initState).filteredEnglishCount ≤
      (crawlPages minLen maxCount pages initState).visited ∧
    ∀ (st : CrawlState) (c : CardEvent),
      (stepCard minLen st c).visited = st.visited + 1 ∧
      (stepCard minLen st c).validCount + (stepCard minLen st c).filteredCount +
          (stepCard minLen st c).filteredEnglishCount ≤
        st.validCount + st.filteredCount + st.filteredEnglishCount + 1 := by
  refine ⟨crawlPages_buffer minLen maxCount pages initState rfl, ?_,
    fun st c => ⟨stepCard_visited minLen st c, stepCard_counters minLen st c⟩⟩
  have h := crawlPages_counters minLen maxCount pages initState
  have e1 : initState.validCount = 0 := rfl
  have e2 : initState.filteredCount = 0 := rfl
  have e3 : initState.filteredEnglishCount = 0 := rfl
  have e4 : initState.visited = 0 := rfl
  omega

theorem append_csv_foldl (jobName jobCode : String) :
    ∀ (rows : List Row) (acc : List TaggedRow × Nat),
      rows.foldl (fun a row => (a.1 ++ [tagRow row jobName jobCode], a.2 + 1)) acc =
        (acc.1 ++ rows.map (fun r => tagRow r jobName jobCode), acc.2 + rows.length) := by
  intro rows
  induction rows with
  | nil => intro acc; simp
  | cons r rest ih =>
    intro acc
    rw [List.foldl_cons, ih]
    simp
    omega

/-- C7: merging a category CSV with R data rows appends exactly R tagged
records to the combined dataset — each record being that row's 12 fields
unchanged plus `job_category` and `job_code` — and returns R as the count. -/
theorem c7_merge_one_record_per_row (rows : List Row) (combined : List TaggedRow)
    (jobName jobCode : String) :
    append_csv_to_jsonl rows combined jobName jobCode =
      (combined ++ rows.map (fun r => tagRow r jobName jobCode), rows.length) ∧
    ∀ r : Row, (tagRow r jobName jobCode).toRow = r ∧
      (tagRow r jobName jobCode).job_category = jobName ∧
      (tagRow r jobName jobCode).job_code = jobCode := by
  refine ⟨?_, fun r => ⟨rfl, rfl, rfl⟩⟩
  rw [append_csv_to_jsonl, append_csv_foldl]
  simp

def sampleRow : Row :=
  ⟨"", "", "", "", "", "", "", "", "", "", "", ""⟩

/-- C8 (code-bug evidence): running `main` leaves the combined dataset
untouched in both modes — with 2 prior rows, `append = false`, and a run
whose crawl accepts 1 record, the file still holds the 2 prior rows rather
than exactly the 1 new row the claim requires — because `crawl_jobs` is an
`async def` invoked without `await`, so it never executes. -/
theorem c8_combined_file_never_written :
    mainCombinedRows
        [tagRow sampleRow "Java" "100101", tagRow sampleRow "Java" "100101"] false =
      [tagRow sampleRow "Java" "100101", tagRow sampleRow "Java" "100101"] ∧
    mainCombinedRows
        [tagRow sampleRow "Java" "100101", tagRow sampleRow "Java" "100101"] true =
      [tagRow sampleRow "Java" "100101", tagRow sampleRow "Java" "100101"] ∧
    specCombinedRows
        [tagRow sampleRow "Java" "100101", tagRow sampleRow "Java" "100101"]
        [tagRow sampleRow "Python" "100109"] false =
      [tagRow sampleRow "Python" "100109"] ∧
    mainCombinedRows
        [tagRow sampleRow "Java" "100101", tagRow sampleRow "Java" "100101"] false ≠
      specCombinedRows
        [tagRow sampleRow "Java" "100101", tagRow sampleRow "Java" "100101"]
        [tagRow sampleRow "Python" "100109"] false := by
  refine ⟨rfl, rfl, rfl, ?_⟩
  decide

/-- C9: a category list containing a name absent from `job_dict` makes
`parse_job_names` fail with a validation error, and `main` then stops before
the `crawl_jobs` call — hence before any browser session opens or any output
file is created. -/
theorem c9_unknown_name_rejected_early (s : List Char)
    (h : ∃ n ∈ jobNames s, isKnownJob n = false) :
    (∃ u, parse_job_names (some s) = .error u ∧ u ≠ []) ∧
    Effect.callCrawlJobs ∉ mainEffects (some s) := by
  obtain ⟨n, hn, hk⟩ := h
  by_cases hs : s = []
  · subst hs
    have hempty : jobNames [] = [] := rfl
    rw [hempty] at hn
    exact absurd hn (List.not_mem_nil n)
  · have hmem : n ∈ (jobNames s).filter (fun m => ! isKnownJob m) :=
      List.mem_filter.mpr ⟨hn, by rw [hk]; rfl⟩
    have hne : (jobNames s).filter (fun m => ! isKnownJob m) ≠ [] :=
      List.ne_nil_of_mem hmem
    have hemp : ¬(((jobNames s).filter (fun m => ! isKnownJob m)).isEmpty = true) := by
      rw [List.isEmpty_iff]
      exact hne
    have herr : parse_job_names (some s) =
        .error ((jobNames s).filter (fun m => ! isKnownJob m)) := by
      simp only [parse_job_names]
      rw [if_neg hs, if_neg hemp]
    refine ⟨⟨(jobNames s).filter (fun m => ! isKnownJob m), herr, hne⟩, ?_⟩
    simp only [mainEffects, herr]
    decide

theorem c9_witness :
    (∃ u, parse_job_names (some "Java,Bogus".data) = .error u ∧ u ≠ []) ∧
    Effect.callCrawlJobs ∉ mainEffects (some "Java,Bogus".data) :=
  c9_unknown_name_rejected_early "Java,Bogus".data
    ⟨"Bogus".data, by decide, by decide⟩

/-- C10: with the category argument absent or empty, `parse_job_names`
returns every key of `job_dict`, in the mapping's declaration order — all 13
categories. -/
theorem c10_default_all_categories :
    parse_job_names none = .ok allJobNames ∧
    parse_job_names (some []) = .ok allJobNames ∧
    allJobNames = ["Java".data, "C/C++".data, "Python".data, "Golang".data,
      "Node.js".data, "图像算法".data, "自然语言处理算法".data, "大模型算法".data,
      "数据挖掘".data, "规控算法".data, "SLAM算法".data, "推荐算法".data,
      "搜索算法".data] ∧
    allJobNames.length = 13 :=
  ⟨rfl, rfl, by decide, by decide⟩
